import Mathlib

/-!
Shallow embedding of the Game of Life repository (src/lib.rs, src/main.rs) and
proofs about it.  Machine integers are modelled as Nat/Int; wherever the Rust
code performs width-limited arithmetic whose overflow or underflow matters
(the i16 flattened index in Grid::get_cell, the u8 arithmetic in
Grid::print_grid), the overflow condition is modelled explicitly and a panic is
represented by Option.none.
-/

set_option autoImplicit false

namespace GameOfLife

/-- Alive/dead state of a cell; the Rust enum carries discriminants
Alive = 1, Dead = 0. -/
inductive State where
  | alive
  | dead
deriving DecidableEq, Repr

/-- Numeric value of a state, mirroring the Rust cast of the enum to u8. -/
def State.value : State → Nat
  | .alive => 1
  | .dead => 0

/-- Boolean view of a state. -/
def State.isAlive : State → Bool
  | .alive => true
  | .dead => false

/-- A single grid cell: its state and its coordinates, as in the Rust Cell. -/
structure Cell where
  state : State
  x : Nat
  y : Nat
deriving DecidableEq, Repr

/-- Mirrors Cell::new. -/
def Cell.new (x y : Nat) (alive : Bool) : Cell :=
  { state := if alive then State.alive else State.dead, x := x, y := y }

/-- Mirrors Cell::get_coords. -/
def Cell.get_coords (c : Cell) : Nat × Nat := (c.x, c.y)

/-- Mirrors the Debug glyph of a cell (the fmt implementation). -/
def Cell.glyph (c : Cell) : String :=
  if c.state.isAlive then "O" else "."

/-- The grid: flattened row-major cell list plus dimensions (u8 in Rust). -/
structure Grid where
  grid : List Cell
  width : Nat
  height : Nat
deriving DecidableEq, Repr

/-- Mirrors Grid::new: the outer loop runs b over 0..height, the inner loop a
over 0..width, and each cell is alive iff (a, b) occurs in starting_cells. -/
def Grid.new (width height : Nat) (starting_cells : List (Nat × Nat)) : Grid :=
  { grid := (List.range height).flatMap (fun b =>
      (List.range width).map (fun a => Cell.new a b (starting_cells.contains (a, b)))),
    width := width,
    height := height }

/-- Mirrors Grid::get_cell.  The coordinates are i16 in Rust and the flattened
index y * width + x is computed in i16, so for in-bounds coordinates whose
index exceeds 32767 the Rust program panics (checked multiplication/addition in
debug builds; in release builds the wrapped index is negative, its cast to
usize is enormous, and the vector indexing panics).  The outer Option models
that panic; the inner Option is the function's own return value. -/
def Grid.get_cell (g : Grid) (x y : Int) : Option (Option Cell) :=
  if x < 0 ∨ (g.width : Int) ≤ x ∨ y < 0 ∨ (g.height : Int) ≤ y then
    some none
  else if 32767 < y * (g.width : Int) ∨ 32767 < y * (g.width : Int) + x then
    none
  else
    match g.grid.get? (y * (g.width : Int) + x).toNat with
    | some c => some (some c)
    | none => none

/-- The eight neighbour coordinates pushed by step_forward's double loop, in
push order: i runs over x-1, x, x+1 (outer), j over y-1, y, y+1 (inner),
skipping (x, y) itself. -/
def neighbourCoords (x y : Int) : List (Int × Int) :=
  [(x - 1, y - 1), (x - 1, y), (x - 1, y + 1),
   (x, y - 1), (x, y + 1),
   (x + 1, y - 1), (x + 1, y), (x + 1, y + 1)]

/-- Sequences a list of possibly-panicking computations; a panic anywhere
makes the whole traversal a panic. -/
def optionTraverse {α β : Type} (f : α → Option β) : List α → Option (List β)
  | [] => some []
  | a :: rest =>
    match f a, optionTraverse f rest with
    | some b, some bs => some (b :: bs)
    | _, _ => none

/-- Mirrors unwrap_cell_state_value. -/
def unwrap_cell_state_value : Option Cell → Nat
  | some c => c.state.value
  | none => 0

/-- Mirrors calc_new_state: sum the neighbour state values (the Rust reduce
with default 0) and apply the rule chain. -/
def calc_new_state (current_state : State) (neighbours : List (Option Cell)) : State :=
  let live_neighbour_count := (neighbours.map unwrap_cell_state_value).foldl (· + ·) 0
  if current_state = State.alive ∧ (live_neighbour_count = 2 ∨ live_neighbour_count = 3) then
    State.alive
  else if current_state = State.dead ∧ live_neighbour_count = 3 then
    State.alive
  else
    State.dead

/-- Mirrors Cell::update_state. -/
def Cell.update_state (c : Cell) (neighbours : List (Option Cell)) : Cell :=
  { c with state := calc_new_state c.state neighbours }

/-- One cell's update inside step_forward: gather the eight neighbour lookups
from the snapshot (a lookup panic propagates) and overwrite the state. -/
def stepCell (snap : Grid) (c : Cell) : Option Cell :=
  (optionTraverse (fun p => snap.get_cell p.1 p.2)
      (neighbourCoords (c.x : Int) (c.y : Int))).map
    (fun ns => c.update_state ns)

/-- Mirrors Grid::step_forward: the snapshot is the pre-advance grid itself and
every cell is rewritten from it. -/
def Grid.step_forward (g : Grid) : Option Grid :=
  (optionTraverse (stepCell g) g.grid).map (fun cells => { g with grid := cells })

/-- n successive generation advances. -/
def Grid.stepN : Nat → Grid → Option Grid
  | 0, g => some g
  | n + 1, g => g.step_forward.bind (Grid.stepN n)

/-- Coordinates of the cells reported alive, in storage order. -/
def Grid.liveCoords (g : Grid) : List (Nat × Nat) :=
  (g.grid.filter (fun c => c.state.isAlive)).map Cell.get_coords

/-- The B3/S23 rule table exactly as the specification states it. -/
def lifeRule (s : State) (n : Nat) : State :=
  match s with
  | .alive => if n = 2 ∨ n = 3 then State.alive else State.dead
  | .dead => if n = 3 then State.alive else State.dead

/-- Whether the grid holds a live cell at coordinate p; an out-of-bounds or
panicking lookup contributes nothing. -/
def Grid.aliveAt (g : Grid) (p : Int × Int) : Bool :=
  match g.get_cell p.1 p.2 with
  | some (some c) => c.state.isAlive
  | _ => false

/-- Number of live neighbours of (x, y) in g. -/
def Grid.liveNeighbourCount (g : Grid) (x y : Int) : Nat :=
  ((neighbourCoords x y).filter g.aliveAt).length

/-- Per-cell updates performed in an arbitrary index order: each listed index
reads its own cell and its neighbours from the pre-advance snapshot g and
writes the result into its own slot of the accumulator. -/
def stepSlots (g : Grid) : List Nat → List Cell → Option (List Cell)
  | [], acc => some acc
  | i :: rest, acc =>
    match g.grid.get? i with
    | none => none
    | some c =>
      match stepCell g c with
      | none => none
      | some c' => stepSlots g rest (acc.set i c')

/-- The whole-grid update performed in the given index order. -/
def stepInOrder (g : Grid) (order : List Nat) : Option (List Cell) :=
  stepSlots g order g.grid

/-- One printed row of print_grid: each cell's glyph followed by a space, as
printed by the per-cell print! of the Debug form. -/
def renderLine (line : List Cell) : String :=
  String.join (line.map (fun c => c.glyph ++ " "))

/-- One iteration of print_grid's loop at index i, carrying the pair
(line buffer, rows printed so far).  The u8 expression
width * height - width - 1 underflows (panics) when width * height < width + 1;
indexing the grid or the line buffer out of range panics likewise. -/
def printStep (g : Grid) (p : Nat) (st : List Cell × List String) (i : Nat) :
    Option (List Cell × List String) :=
  if p < g.width + 1 then none
  else
    match g.grid.get? i with
    | none => none
    | some c =>
      if p - g.width - 1 < i then
        let line := c :: st.1
        some (line, if i % g.width = 0 then st.2 ++ [renderLine line] else st.2)
      else
        if i % g.width < st.1.length then
          let line := st.1.set (i % g.width) c
          some (line, if i % g.width = 0 then st.2 ++ [renderLine line] else st.2)
        else none

/-- print_grid's loop over the index list. -/
def printLoop (g : Grid) (p : Nat) :
    List Nat → (List Cell × List String) → Option (List Cell × List String)
  | [], st => some st
  | i :: rest, st =>
    match printStep g p st i with
    | none => none
    | some st' => printLoop g p rest st'

/-- Mirrors Grid::print_grid, collecting the printed rows in print order.  The
index i runs from width * height - 1 down to 0; the u8 product width * height
overflows (panics) above 255. -/
def Grid.print_grid (g : Grid) : Option (List String) :=
  let p := g.width * g.height
  if 255 < p then none
  else (printLoop g p ((List.range p).reverse) ([], [])).map (fun st => st.2)

/-- Placeholder cell for getD-style row extraction in specification-side
definitions; never produced by the program itself. -/
def dummyCell : Cell := { state := State.dead, x := 0, y := 0 }

/-- Row y of the grid, left to right, read off the flattened storage. -/
def Grid.rowCells (g : Grid) (y : Nat) : List Cell :=
  (List.range g.width).map (fun x => g.grid.getD (y * g.width + x) dummyCell)

/-- The rendering policy as the specification states it: rows from the top
(y = height - 1) down to y = 0, each row rendered left to right. -/
def Grid.renderRows (g : Grid) : List String :=
  ((List.range g.height).reverse).map (fun y => renderLine (g.rowCells y))

/-- The five error kinds of Config::build.  The Rust ArgsParsingError carries
the underlying ParseIntError payload, which none of the claims inspect. -/
inductive ConfigError where
  | argsParsingError
  | startingSizeMissing
  | cycleCountMissing
  | tooFewStartingPoints
  | startingPointsParsingError
deriving DecidableEq, Repr

/-- The validated configuration, as in the Rust Config struct. -/
structure Config where
  grid_width : Nat
  grid_height : Nat
  cycle_count : Nat
  starting_cells : List (Nat × Nat)
deriving DecidableEq, Repr

/-- Decimal accumulation over a character list; none as soon as a character is
not an ASCII digit (Rust from_str_radix with radix 10). -/
def digitsValAux : List Char → Nat → Option Nat
  | [], acc => some acc
  | c :: rest, acc =>
    if c.isDigit then digitsValAux rest (acc * 10 + (c.toNat - 48)) else none

/-- Rust unsigned-integer parsing: an optional leading plus sign, then one or
more decimal digits, with the final value within range.  (For an unsigned
target type a minus sign is not consumed as a sign, so it fails as a
non-digit; overflow during accumulation is equivalent to the final value
exceeding maxVal.) -/
def parseUnsignedChars (maxVal : Nat) (cs : List Char) : Option Nat :=
  let digits := match cs with
    | '+' :: rest => rest
    | other => other
  match digits with
  | [] => none
  | _ =>
    match digitsValAux digits 0 with
    | none => none
    | some v => if v ≤ maxVal then some v else none

/-- Rust str::parse::<u8>. -/
def parseU8 (s : String) : Option Nat := parseUnsignedChars 255 s.data

/-- Rust str::parse::<usize> on a 64-bit target. -/
def parseUsize (s : String) : Option Nat := parseUnsignedChars (2 ^ 64 - 1) s.data

/-- Rust str::split(',') on the character list. -/
def splitComma : List Char → List (List Char)
  | [] => [[]]
  | c :: rest =>
    if c = ',' then [] :: splitComma rest
    else
      match splitComma rest with
      | g :: gs => (c :: g) :: gs
      | [] => [[c]]

/-- One starting-point string: exactly two comma-separated components, each
parsing as u8. -/
def parsePoint (s : String) : Option (Nat × Nat) :=
  match splitComma s.data with
  | [a, b] =>
    match parseUnsignedChars 255 a, parseUnsignedChars 255 b with
    | some xc, some yc => some (xc, yc)
    | _, _ => none
  | _ => none

/-- The starting-cells loop of Config::build: duplicate points are skipped,
any malformed string aborts with an error. -/
def collectPoints : List String → List (Nat × Nat) → Option (List (Nat × Nat))
  | [], acc => some acc
  | s :: rest, acc =>
    match parsePoint s with
    | none => none
    | some p => collectPoints rest (if acc.contains p then acc else acc ++ [p])

/-- Mirrors Config::build. -/
def Config.build (args : List String) : Except ConfigError Config :=
  if args.length < 2 then .error .startingSizeMissing
  else if args.length < 3 then .error .cycleCountMissing
  else if args.length < 6 then .error .tooFewStartingPoints
  else
    match parseU8 (args.getD 0 ""), parseU8 (args.getD 1 ""), parseUsize (args.getD 2 "") with
    | some w, some h, some cc =>
      match collectPoints (args.drop 3) [] with
      | none => .error .startingPointsParsingError
      | some cells =>
        .ok { grid_width := w, grid_height := h, cycle_count := cc, starting_cells := cells }
    | _, _, _ => .error .argsParsingError

/-! Helper lemmas about optionTraverse. -/

theorem optionTraverse_length {α β : Type} {f : α → Option β} :
    ∀ {l : List α} {l' : List β}, optionTraverse f l = some l' → l'.length = l.length := by
  intro l
  induction l with
  | nil => intro l' h; cases h; rfl
  | cons a rest ih =>
    intro l' h
    unfold optionTraverse at h
    cases hfa : f a with
    | none => rw [hfa] at h; exact absurd h (by simp)
    | some b =>
      rw [hfa] at h
      cases hrest : optionTraverse f rest with
      | none => rw [hrest] at h; exact absurd h (by simp)
      | some bs =>
        rw [hrest] at h
        simp only [Option.some.injEq] at h
        subst h
        simpa using ih hrest

theorem optionTraverse_get? {α β : Type} {f : α → Option β} :
    ∀ {l : List α} {l' : List β}, optionTraverse f l = some l' →
      ∀ k, l'.get? k = (l.get? k).bind f := by
  intro l
  induction l with
  | nil => intro l' h k; cases h; cases k <;> rfl
  | cons a rest ih =>
    intro l' h k
    unfold optionTraverse at h
    cases hfa : f a with
    | none => rw [hfa] at h; exact absurd h (by simp)
    | some b =>
      rw [hfa] at h
      cases hrest : optionTraverse f rest with
      | none => rw [hrest] at h; exact absurd h (by simp)
      | some bs =>
        rw [hrest] at h
        simp only [Option.some.injEq] at h
        subst h
        cases k with
        | zero => simpa using hfa.symm
        | succ k => simpa using ih hrest k

theorem optionTraverse_eq_none_iff {α β : Type} {f : α → Option β} :
    ∀ {l : List α}, optionTraverse f l = none ↔ ∃ a ∈ l, f a = none := by
  intro l
  induction l with
  | nil => simp [optionTraverse]
  | cons a rest ih =>
    constructor
    · intro h
      unfold optionTraverse at h
      cases hfa : f a with
      | none => exact ⟨a, List.mem_cons_self a rest, hfa⟩
      | some b =>
        rw [hfa] at h
        cases hrest : optionTraverse f rest with
        | none =>
          obtain ⟨x, hx, hfx⟩ := ih.mp hrest
          exact ⟨x, List.mem_cons_of_mem a hx, hfx⟩
        | some bs => rw [hrest] at h; exact absurd h (by simp)
    · rintro ⟨x, hx, hfx⟩
      unfold optionTraverse
      rcases List.mem_cons.mp hx with rfl | hx'
      · rw [hfx]
      · cases hfa : f a with
        | none => rfl
        | some b =>
          have : optionTraverse f rest = none := ih.mpr ⟨x, hx', hfx⟩
          rw [this]

/-! Helper lemmas about Grid.new. -/

theorem flatMap_rows_length {w : Nat} {f : Nat → List Cell} (hw : ∀ b, (f b).length = w) :
    ∀ h : Nat, ((List.range h).flatMap f).length = h * w := by
  intro h
  induction h with
  | zero => simp
  | succ h ih =>
    rw [List.range_succ, List.flatMap_append, List.length_append, ih]
    simp [hw, Nat.succ_mul]

theorem flatMap_rows_get? {w : Nat} {f : Nat → List Cell} (hw : ∀ b, (f b).length = w) :
    ∀ (h i : Nat), i < h * w → ((List.range h).flatMap f).get? i = (f (i / w)).get? (i % w) := by
  intro h
  induction h with
  | zero => intro i hi; omega
  | succ h ih =>
    intro i hi
    rw [List.range_succ, List.flatMap_append]
    by_cases hcase : i < h * w
    · rw [List.get?_append]
      · exact ih i hcase
      · rw [flatMap_rows_length hw]; exact hcase
    · have hw0 : 0 < w := by
        rcases Nat.eq_zero_or_pos w with h0 | h0
        · subst h0; omega
        · exact h0
      have h1 : h * w ≤ i := Nat.le_of_not_lt hcase
      have hr : i - h * w < w := by
        have : i < h * w + w := by
          calc i < (h + 1) * w := hi
            _ = h * w + w := by ring
        omega
      have hdiv : i / w = h := by
        conv_lhs => rw [show i = w * h + (i - h * w) from by
          have := Nat.mul_comm w h; omega]
        rw [Nat.mul_add_div hw0, Nat.div_eq_of_lt hr, Nat.add_zero]
      have hmod : i % w = i - h * w := by
        have : (w * h + (i - h * w)) % w = (i - h * w) % w := Nat.mul_add_mod w h (i - h * w)
        have heq : w * h + (i - h * w) = i := by
          have := Nat.mul_comm w h; omega
        rw [heq] at this
        rw [this, Nat.mod_eq_of_lt hr]
      rw [List.get?_append_right]
      · rw [flatMap_rows_length hw, List.flatMap_singleton, hdiv, hmod]
      · rw [flatMap_rows_length hw]; exact h1

theorem Grid.new_width (w h : Nat) (s : List (Nat × Nat)) : (Grid.new w h s).width = w := rfl

theorem Grid.new_height (w h : Nat) (s : List (Nat × Nat)) : (Grid.new w h s).height = h := rfl

theorem Grid.new_length (w h : Nat) (s : List (Nat × Nat)) :
    (Grid.new w h s).grid.length = w * h := by
  show ((List.range h).flatMap _).length = w * h
  rw [flatMap_rows_length (w := w) (fun b => by simp) h, Nat.mul_comm]

theorem Grid.new_get? (w h : Nat) (s : List (Nat × Nat)) {i : Nat} (hi : i < w * h) :
    (Grid.new w h s).grid.get? i =
      some (Cell.new (i % w) (i / w) (s.contains (i % w, i / w))) := by
  have hw0 : 0 < w := by
    rcases Nat.eq_zero_or_pos w with h0 | h0
    · subst h0; omega
    · exact h0
  show ((List.range h).flatMap _).get? i = _
  rw [flatMap_rows_get? (w := w) (fun b => by simp) h i (by rw [Nat.mul_comm]; exact hi)]
  rw [List.get?_map, List.get?_range (Nat.mod_lt i hw0)]
  rfl

theorem Grid.new_mem_bounds (w h : Nat) (s : List (Nat × Nat)) {c : Cell}
    (hc : c ∈ (Grid.new w h s).grid) : c.x < w ∧ c.y < h := by
  have : c ∈ (List.range h).flatMap (fun b =>
      (List.range w).map (fun a => Cell.new a b (s.contains (a, b)))) := hc
  simp only [List.mem_flatMap, List.mem_map, List.mem_range] at this
  obtain ⟨b, hb, a, ha, rfl⟩ := this
  exact ⟨ha, hb⟩

/-- C5: Grid::new builds exactly width * height cells in row-major order — the
cell at flattened index i has coordinates (i mod width, i div width) — and a
cell starts alive iff its coordinates appear in the seed list; since every
built cell's coordinates are in bounds, out-of-bounds seed coordinates mark no
cell alive and cause no error. -/
theorem contains_eq_decide_mem (seed : List (Nat × Nat)) (p : Nat × Nat) :
    seed.contains p = decide (p ∈ seed) := by
  by_cases hmem : p ∈ seed
  · show List.elem p seed = _
    rw [List.elem_eq_true_of_mem hmem, decide_eq_true hmem]
  · show List.elem p seed = _
    rw [decide_eq_false hmem]
    by_contra hne
    exact hmem (List.mem_of_elem_eq_true (Bool.of_not_eq_false hne))

theorem claim_C5_construction (w h : Nat) (seed : List (Nat × Nat)) :
    (Grid.new w h seed).grid.length = w * h ∧
    (∀ i, i < w * h →
      ((Grid.new w h seed).grid.get? i).map Cell.get_coords = some (i % w, i / w) ∧
      ((Grid.new w h seed).grid.get? i).map (fun c => c.state.isAlive) =
        some (decide ((i % w, i / w) ∈ seed))) ∧
    (∀ c, c ∈ (Grid.new w h seed).grid → c.x < w ∧ c.y < h) := by
  refine ⟨Grid.new_length w h seed, ?_, fun c hc => Grid.new_mem_bounds w h seed hc⟩
  intro i hi
  rw [Grid.new_get? w h seed hi]
  refine ⟨rfl, ?_⟩
  rw [contains_eq_decide_mem seed (i % w, i / w)]
  by_cases hmem : (i % w, i / w) ∈ seed
  · simp [Cell.new, hmem, State.isAlive]
  · simp [Cell.new, hmem, State.isAlive]

/-- Witness for C5 on a concrete grid: a 3 by 2 grid with one in-bounds and one
out-of-bounds seed coordinate; index 5 is the top-right cell (2, 1), which is
alive, and the out-of-bounds seed (9, 9) marks nothing. -/
theorem claim_C5_construction_witness :
    (Grid.new 3 2 [(2, 1), (9, 9)]).grid.length = 3 * 2 ∧
    5 < 3 * 2 ∧
    ((Grid.new 3 2 [(2, 1), (9, 9)]).grid.get? 5).map Cell.get_coords = some (5 % 3, 5 / 3) ∧
    ((Grid.new 3 2 [(2, 1), (9, 9)]).grid.get? 5).map (fun c => c.state.isAlive) =
      some (decide ((5 % 3, 5 / 3) ∈ [(2, 1), (9, 9)])) :=
  ⟨(claim_C5_construction 3 2 [(2, 1), (9, 9)]).1,
    by decide,
    ((claim_C5_construction 3 2 [(2, 1), (9, 9)]).2.1 5 (by decide)).1,
    ((claim_C5_construction 3 2 [(2, 1), (9, 9)]).2.1 5 (by decide)).2⟩

/-! Helper lemmas about stepCell and step_forward. -/

theorem sumVal_eq_live_count {g : Grid} :
    ∀ (cs : List (Int × Int)) (ns : List (Option Cell)) (a : Nat),
      optionTraverse (fun p => g.get_cell p.1 p.2) cs = some ns →
      (ns.map unwrap_cell_state_value).foldl (· + ·) a = a + (cs.filter g.aliveAt).length := by
  intro cs
  induction cs with
  | nil => intro ns a h; cases h; simp
  | cons p rest ih =>
    intro ns a h
    unfold optionTraverse at h
    cases hp : g.get_cell p.1 p.2 with
    | none => rw [hp] at h; exact absurd h (by simp)
    | some o =>
      rw [hp] at h
      cases hrest : optionTraverse (fun p => g.get_cell p.1 p.2) rest with
      | none => rw [hrest] at h; exact absurd h (by simp)
      | some ns' =>
        rw [hrest] at h
        simp only [Option.some.injEq] at h
        subst h
        rw [List.map_cons, List.foldl_cons, ih ns' (a + unwrap_cell_state_value o) hrest]
        cases o with
        | none =>
          have halive : g.aliveAt p = false := by simp [Grid.aliveAt, hp]
          rw [List.filter_cons]
          simp [halive, unwrap_cell_state_value]
        | some c =>
          have halive : g.aliveAt p = c.state.isAlive := by simp [Grid.aliveAt, hp]
          rw [List.filter_cons]
          cases hcs : c.state with
          | alive => simp [halive, unwrap_cell_state_value, State.value, hcs, State.isAlive,
              Nat.add_assoc, Nat.add_comm 1]
          | dead => simp [halive, unwrap_cell_state_value, State.value, hcs, State.isAlive]

theorem calc_eq_lifeRule (s : State) (ns : List (Option Cell)) :
    calc_new_state s ns = lifeRule s ((ns.map unwrap_cell_state_value).foldl (· + ·) 0) := by
  cases s <;> simp [calc_new_state, lifeRule]

theorem stepCell_spec {g : Grid} {c c' : Cell} (h : stepCell g c = some c') :
    c'.x = c.x ∧ c'.y = c.y ∧
    c'.state = lifeRule c.state (g.liveNeighbourCount (c.x : Int) (c.y : Int)) := by
  unfold stepCell at h
  cases htr : optionTraverse (fun p => g.get_cell p.1 p.2)
      (neighbourCoords (c.x : Int) (c.y : Int)) with
  | none => rw [htr] at h; exact absurd h (by simp)
  | some ns =>
    rw [htr] at h
    simp only [Option.map_some', Option.some.injEq] at h
    subst h
    refine ⟨rfl, rfl, ?_⟩
    show calc_new_state c.state ns = _
    rw [calc_eq_lifeRule, sumVal_eq_live_count _ ns 0 htr, Nat.zero_add]
    rfl

theorem step_forward_parts {g g' : Grid} (h : g.step_forward = some g') :
    g'.width = g.width ∧ g'.height = g.height ∧
    g'.grid.length = g.grid.length ∧
    ∀ i, g'.grid.get? i = (g.grid.get? i).bind (stepCell g) := by
  unfold Grid.step_forward at h
  cases htr : optionTraverse (stepCell g) g.grid with
  | none => rw [htr] at h; exact absurd h (by simp)
  | some cells =>
    rw [htr] at h
    simp only [Option.map_some', Option.some.injEq] at h
    subst h
    exact ⟨rfl, rfl, optionTraverse_length htr, optionTraverse_get? htr⟩

/-- C1: whenever step_forward completes, every cell's new state is the B3/S23
rule table applied to the cell's old state and its live-neighbour count in the
pre-advance grid. -/
theorem claim_C1_rule_table {g g' : Grid} (hstep : g.step_forward = some g')
    {i : Nat} {c c' : Cell} (hc : g.grid.get? i = some c) (hc' : g'.grid.get? i = some c') :
    c'.state = lifeRule c.state (g.liveNeighbourCount (c.x : Int) (c.y : Int)) := by
  have hpt := (step_forward_parts hstep).2.2.2 i
  rw [hc, hc'] at hpt
  exact (stepCell_spec hpt.symm).2.2

/-! Helper lemmas for order independence. -/

theorem stepSlots_none_of_fail {g : Grid} :
    ∀ (order : List Nat) (acc : List Cell) {i : Nat} {c : Cell},
      i ∈ order → g.grid.get? i = some c → stepCell g c = none →
      stepSlots g order acc = none := by
  intro order
  induction order with
  | nil => intro acc i c hi; cases hi
  | cons j rest ih =>
    intro acc i c hi hget hfail
    unfold stepSlots
    cases hj : g.grid.get? j with
    | none => rfl
    | some cj =>
      cases hsj : stepCell g cj with
      | none => simp only [hsj]
      | some cj' =>
        simp only [hsj]
        rcases List.mem_cons.mp hi with rfl | hi'
        · rw [hj] at hget
          cases hget
          rw [hsj] at hfail
          cases hfail
        · exact ih _ hi' hget hfail

theorem stepSlots_all_some {g : Grid}
    (hall : ∀ c, c ∈ g.grid → (stepCell g c).isSome) :
    ∀ (order : List Nat) (acc : List Cell),
      (∀ i, i ∈ order → i < g.grid.length) → acc.length = g.grid.length →
      ∃ res, stepSlots g order acc = some res ∧ res.length = acc.length ∧
        ∀ j, res.get? j =
          if j ∈ order then (g.grid.get? j).bind (stepCell g) else acc.get? j := by
  intro order
  induction order with
  | nil =>
    intro acc hbound hlen
    refine ⟨acc, rfl, rfl, fun j => ?_⟩
    simp
  | cons i rest ih =>
    intro acc hbound hlen
    have hilt : i < g.grid.length := hbound i (List.mem_cons_self i rest)
    obtain ⟨c, hc⟩ : ∃ c, g.grid.get? i = some c := ⟨_, List.get?_eq_get hilt⟩
    have hmem : c ∈ g.grid := List.mem_iff_get?.mpr ⟨i, hc⟩
    obtain ⟨c', hc'⟩ : ∃ c', stepCell g c = some c' :=
      Option.isSome_iff_exists.mp (hall c hmem)
    obtain ⟨res, hres, hreslen, hresget⟩ :=
      ih (acc.set i c') (fun k hk => hbound k (List.mem_cons_of_mem i hk))
        (by rw [List.length_set]; exact hlen)
    refine ⟨res, ?_, by rw [hreslen, List.length_set], fun j => ?_⟩
    · unfold stepSlots
      simp only [hc, hc']
      exact hres
    · rw [hresget j]
      have hset : ∀ j', (acc.set i c').get? j' = if i = j' then some c' else acc.get? j' :=
        fun j' => List.get?_set_of_lt' c' acc (by omega)
      by_cases hjr : j ∈ rest
      · rw [if_pos hjr, if_pos (List.mem_cons_of_mem i hjr)]
      · by_cases hji : j = i
        · subst hji
          rw [if_neg hjr, if_pos (List.mem_cons_self j rest), hset j, if_pos rfl, hc]
          exact hc'.symm
        · have hnotc : ¬ j ∈ i :: rest := by
            rw [List.mem_cons]
            rintro (h | h)
            · exact hji h
            · exact hjr h
          rw [if_neg hjr, if_neg hnotc, hset j, if_neg (fun h => hji h.symm)]

/-- C2: during one advance every cell's next state is read off the frozen
pre-advance snapshot only, so performing the per-cell updates in any order —
any permutation of the cell indices, in particular reverse instead of forward
iteration — produces exactly the next-generation grid of step_forward. -/
theorem claim_C2_order_independent {g : Grid} {order : List Nat}
    (hperm : order.Perm (List.range g.grid.length)) :
    stepInOrder g order = g.step_forward.map Grid.grid := by
  have hmemiff : ∀ j, j ∈ order ↔ j < g.grid.length := by
    intro j
    rw [hperm.mem_iff, List.mem_range]
  by_cases hfail : ∃ c ∈ g.grid, stepCell g c = none
  · obtain ⟨c, hcmem, hcfail⟩ := hfail
    obtain ⟨i, hci⟩ := List.mem_iff_get?.mp hcmem
    have hilt : i < g.grid.length := by
      by_contra hge
      rw [List.get?_eq_none.mpr (by omega)] at hci
      cases hci
    have hlhs : stepInOrder g order = none :=
      stepSlots_none_of_fail order g.grid ((hmemiff i).mpr hilt) hci hcfail
    have hrhs : optionTraverse (stepCell g) g.grid = none :=
      optionTraverse_eq_none_iff.mpr ⟨c, hcmem, hcfail⟩
    rw [hlhs]
    unfold Grid.step_forward
    rw [hrhs]
    rfl
  · push_neg at hfail
    have hall : ∀ c, c ∈ g.grid → (stepCell g c).isSome := by
      intro c hc
      cases hs : stepCell g c with
      | none => exact absurd hs (hfail c hc)
      | some c' => rfl
    obtain ⟨res, hres, hreslen, hresget⟩ :=
      stepSlots_all_some hall order g.grid (fun i hi => (hmemiff i).mp hi) rfl
    cases htr : optionTraverse (stepCell g) g.grid with
    | none =>
      obtain ⟨c, hcmem, hcfail⟩ := optionTraverse_eq_none_iff.mp htr
      exact absurd hcfail (hfail c hcmem)
    | some cells =>
      have : stepInOrder g order = some res := hres
      rw [this]
      unfold Grid.step_forward
      rw [htr]
      simp only [Option.map_some']
      congr 1
      apply List.ext
      intro j
      rw [hresget j, optionTraverse_get? htr j]
      by_cases hj : j < g.grid.length
      · rw [if_pos ((hmemiff j).mpr hj)]
      · rw [if_neg (fun hmem => hj ((hmemiff j).mp hmem)),
          List.get?_eq_none.mpr (by omega)]
        rfl

/-- Witness for C2: a concrete 2 by 2 grid updated in a scrambled index order
gives exactly the step_forward result. -/
theorem claim_C2_order_independent_witness :
    [2, 0, 3, 1].Perm (List.range (Grid.new 2 2 [(0, 0), (0, 1), (1, 0)]).grid.length) ∧
    stepInOrder (Grid.new 2 2 [(0, 0), (0, 1), (1, 0)]) [2, 0, 3, 1] =
      (Grid.new 2 2 [(0, 0), (0, 1), (1, 0)]).step_forward.map Grid.grid :=
  ⟨by decide, claim_C2_order_independent (by decide)⟩

/-- Witness for C1: one step of a 3 by 3 grid with a single live centre; the
centre has zero live neighbours and dies, matching the rule table. -/
theorem claim_C1_rule_table_witness :
    Grid.step_forward (Grid.new 3 3 [(1, 1)]) = some (Grid.new 3 3 []) ∧
    (Grid.new 3 3 [(1, 1)]).grid.get? 4 = some (Cell.new 1 1 true) ∧
    (Grid.new 3 3 []).grid.get? 4 = some (Cell.new 1 1 false) ∧
    (Cell.new 1 1 false).state =
      lifeRule (Cell.new 1 1 true).state
        ((Grid.new 3 3 [(1, 1)]).liveNeighbourCount ((Cell.new 1 1 true).x : Int)
          ((Cell.new 1 1 true).y : Int)) :=
  ⟨by decide, by decide, by decide,
    @claim_C1_rule_table (Grid.new 3 3 [(1, 1)]) (Grid.new 3 3 []) (by decide) 4
      (Cell.new 1 1 true) (Cell.new 1 1 false) (by decide) (by decide)⟩

/-- C4 (code bug): on a 255 by 255 grid the lookup at the in-bounds coordinate
(254, 254) panics — its flattened index 254 * 255 + 254 = 65024 exceeds the
i16 range — instead of returning the cell stored at index y * width + x as
get_cell's own documentation promises. -/
theorem claim_C4_in_bounds_lookup_panics :
    (0 : Int) ≤ 254 ∧ (254 : Int) < ((Grid.new 255 255 []).width : Int) ∧
    (0 : Int) ≤ 254 ∧ (254 : Int) < ((Grid.new 255 255 []).height : Int) ∧
    (Grid.new 255 255 []).get_cell 254 254 = none := by
  refine ⟨by decide, by decide, by decide, by decide, ?_⟩
  unfold Grid.get_cell
  rw [if_neg (by decide), if_pos (by decide)]

/-- For out-of-bounds queries get_cell returns the in-language None (absent),
never a constructed cell and never a panic: the bounds test is the first thing
the function does. -/
theorem get_cell_out_of_bounds (g : Grid) (x y : Int)
    (hout : x < 0 ∨ (g.width : Int) ≤ x ∨ y < 0 ∨ (g.height : Int) ≤ y) :
    g.get_cell x y = some none := by
  unfold Grid.get_cell
  rw [if_pos hout]

/-- In-bounds lookups whose flattened index fits in i16 do return the cell
stored at flattened index y * width + x. -/
theorem get_cell_in_bounds (g : Grid) (x y : Int)
    (hx0 : 0 ≤ x) (hxw : x < (g.width : Int)) (hy0 : 0 ≤ y) (hyh : y < (g.height : Int))
    (hfit : y * (g.width : Int) + x ≤ 32767) :
    g.get_cell x y =
      match g.grid.get? (y * (g.width : Int) + x).toNat with
      | some c => some (some c)
      | none => none := by
  unfold Grid.get_cell
  rw [if_neg (by omega), if_neg ?_]
  have hnn : 0 ≤ y * (g.width : Int) := mul_nonneg hy0 (by positivity)
  rintro (hbad | hbad) <;> omega

/-- C3 (code bug): advancing a fully in-range 255 by 129 grid panics.  The
cell at flattened index 32512 has coordinates (127, 127); gathering its
neighbour (128, 128) computes the i16 index 128 * 255 + 128 = 32768, which
overflows, so step_forward does not complete even though all inputs are within
the representable u8 range. -/
theorem claim_C3_step_forward_panics :
    (Grid.new 255 129 []).step_forward = none := by
  have hcell : (Grid.new 255 129 []).grid.get? 32512 = some (Cell.new 127 127 false) :=
    @Grid.new_get? 255 129 [] 32512 (by norm_num)
  have hmem : Cell.new 127 127 false ∈ (Grid.new 255 129 []).grid :=
    List.mem_iff_get?.mpr ⟨32512, hcell⟩
  have hlook : (Grid.new 255 129 []).get_cell 128 128 = none := by
    unfold Grid.get_cell
    rw [if_neg (by decide), if_pos (by decide)]
  have hfail : stepCell (Grid.new 255 129 []) (Cell.new 127 127 false) = none := by
    unfold stepCell
    rw [optionTraverse_eq_none_iff.mpr ⟨(128, 128), by decide, hlook⟩]
    rfl
  unfold Grid.step_forward
  rw [optionTraverse_eq_none_iff.mpr ⟨Cell.new 127 127 false, hmem, hfail⟩]
  rfl

/-- C7: the blinker oscillator on a 5 by 5 grid: one advance turns the
horizontal triple (1,2),(2,2),(3,2) into the vertical triple (2,1),(2,2),(2,3)
exactly, and a second advance restores the horizontal triple exactly. -/
theorem claim_C7_blinker :
    (Grid.new 5 5 [(1, 2), (2, 2), (3, 2)]).step_forward.map Grid.liveCoords =
      some [(2, 1), (2, 2), (2, 3)] ∧
    ((Grid.new 5 5 [(1, 2), (2, 2), (3, 2)]).step_forward.bind Grid.step_forward).map
        Grid.liveCoords = some [(1, 2), (2, 2), (3, 2)] :=
  ⟨by decide, by decide⟩

/-- The shape invariant preserved by generation advance: fixed dimensions,
exactly w * h cells, and row-major coordinates. -/
def gridShape (w h : Nat) (g : Grid) : Prop :=
  g.width = w ∧ g.height = h ∧ g.grid.length = w * h ∧
  ∀ i c, g.grid.get? i = some c → c.x = i % w ∧ c.y = i / w

theorem gridShape_new (w h : Nat) (seed : List (Nat × Nat)) :
    gridShape w h (Grid.new w h seed) := by
  refine ⟨rfl, rfl, Grid.new_length w h seed, fun i c hc => ?_⟩
  by_cases hi : i < w * h
  · rw [Grid.new_get? w h seed hi] at hc
    cases hc
    exact ⟨rfl, rfl⟩
  · rw [List.get?_eq_none.mpr (by rw [Grid.new_length]; omega)] at hc
    cases hc

theorem gridShape_step {w h : Nat} {g g' : Grid} (hstep : g.step_forward = some g')
    (hg : gridShape w h g) : gridShape w h g' := by
  obtain ⟨hw, hh, hlen, hcoords⟩ := hg
  obtain ⟨hw', hh', hlen', hget'⟩ := step_forward_parts hstep
  refine ⟨hw' ▸ hw, hh' ▸ hh, hlen' ▸ hlen, fun i c hc => ?_⟩
  rw [hget' i] at hc
  cases hgi : g.grid.get? i with
  | none => rw [hgi] at hc; cases hc
  | some c0 =>
    rw [hgi] at hc
    have hstepc : stepCell g c0 = some c := hc
    obtain ⟨hx, hy, _⟩ := stepCell_spec hstepc
    obtain ⟨hx0, hy0⟩ := hcoords i c0 hgi
    exact ⟨hx.trans hx0, hy.trans hy0⟩

theorem gridShape_stepN {w h : Nat} :
    ∀ (n : Nat) (g g' : Grid), Grid.stepN n g = some g' → gridShape w h g → gridShape w h g' := by
  intro n
  induction n with
  | zero => intro g g' hstep hg; cases hstep; exact hg
  | succ n ih =>
    intro g g' hstep hg
    unfold Grid.stepN at hstep
    cases h1 : g.step_forward with
    | none => rw [h1] at hstep; cases hstep
    | some g1 =>
      rw [h1] at hstep
      exact ih g1 g' hstep (gridShape_step h1 hg)

/-- C6: step_forward rewrites only cell states — after any number of advances
of a constructed grid, the dimensions are unchanged, the grid still holds
exactly width * height cells, the cell at flattened index i still has
coordinates (i mod width, i div width), and no two cells share a coordinate. -/
theorem claim_C6_frame (w h : Nat) (seed : List (Nat × Nat)) (n : Nat) (g' : Grid)
    (hstep : Grid.stepN n (Grid.new w h seed) = some g') :
    g'.width = w ∧ g'.height = h ∧ g'.grid.length = w * h ∧
    (∀ i c, g'.grid.get? i = some c → c.x = i % w ∧ c.y = i / w) ∧
    (∀ i j ci cj, g'.grid.get? i = some ci → g'.grid.get? j = some cj →
      ci.x = cj.x → ci.y = cj.y → i = j) := by
  obtain ⟨hw, hh, hlen, hcoords⟩ := gridShape_stepN n _ g' hstep (gridShape_new w h seed)
  refine ⟨hw, hh, hlen, hcoords, fun i j ci cj hi hj hx hy => ?_⟩
  obtain ⟨hix, hiy⟩ := hcoords i ci hi
  obtain ⟨hjx, hjy⟩ := hcoords j cj hj
  have hmod : i % w = j % w := by rw [← hix, ← hjx, hx]
  have hdiv : i / w = j / w := by rw [← hiy, ← hjy, hy]
  calc i = w * (i / w) + i % w := (Nat.div_add_mod i w).symm
    _ = w * (j / w) + j % w := by rw [hmod, hdiv]
    _ = j := Nat.div_add_mod j w

/-- Witness for C6: one advance of a 2 by 2 grid seeded at (0, 0); the lone
live cell dies and the frame facts hold concretely. -/
theorem claim_C6_frame_witness :
    Grid.stepN 1 (Grid.new 2 2 [(0, 0)]) = some (Grid.new 2 2 []) ∧
    (Grid.new 2 2 []).width = 2 ∧ (Grid.new 2 2 []).height = 2 ∧
    (Grid.new 2 2 []).grid.length = 2 * 2 :=
  ⟨by decide,
    (claim_C6_frame 2 2 [(0, 0)] 1 (Grid.new 2 2 []) (by decide)).1,
    (claim_C6_frame 2 2 [(0, 0)] 1 (Grid.new 2 2 []) (by decide)).2.1,
    (claim_C6_frame 2 2 [(0, 0)] 1 (Grid.new 2 2 []) (by decide)).2.2.1⟩

/-! Helper lemmas for Config::build. -/

theorem collectPoints_eq_none_iff :
    ∀ (l : List String) (acc : List (Nat × Nat)),
      collectPoints l acc = none ↔ ∃ s ∈ l, parsePoint s = none := by
  intro l
  induction l with
  | nil => intro acc; simp [collectPoints]
  | cons s rest ih =>
    intro acc
    cases hp : parsePoint s with
    | none =>
      have hb : collectPoints (s :: rest) acc = none := by
        conv_lhs => rw [collectPoints]
        simp only [hp]
      rw [hb]
      exact ⟨fun _ => ⟨s, List.mem_cons_self s rest, hp⟩, fun _ => rfl⟩
    | some p =>
      have hb : collectPoints (s :: rest) acc =
          collectPoints rest (if acc.contains p then acc else acc ++ [p]) := by
        conv_lhs => rw [collectPoints]
        simp only [hp]
      rw [hb, ih]
      constructor
      · rintro ⟨x, hx, hpx⟩
        exact ⟨x, List.mem_cons_of_mem s hx, hpx⟩
      · rintro ⟨x, hx, hpx⟩
        rcases List.mem_cons.mp hx with rfl | hx'
        · rw [hp] at hpx
          cases hpx
        · exact ⟨x, hx', hpx⟩

theorem collectPoints_nodup :
    ∀ (l : List String) (acc : List (Nat × Nat)), acc.Nodup →
      ∀ res, collectPoints l acc = some res → res.Nodup := by
  intro l
  induction l with
  | nil =>
    intro acc hacc res h
    cases h
    exact hacc
  | cons s rest ih =>
    intro acc hacc res h
    cases hp : parsePoint s with
    | none =>
      have hb : collectPoints (s :: rest) acc = none := by
        conv_lhs => rw [collectPoints]
        simp only [hp]
      rw [hb] at h
      cases h
    | some p =>
      have hb : collectPoints (s :: rest) acc =
          collectPoints rest (if acc.contains p then acc else acc ++ [p]) := by
        conv_lhs => rw [collectPoints]
        simp only [hp]
      rw [hb] at h
      by_cases hc : acc.contains p
      · rw [if_pos hc] at h
        exact ih acc hacc res h
      · rw [if_neg hc] at h
        have hnp : p ∉ acc := fun hmem => hc (List.elem_eq_true_of_mem hmem)
        refine ih _ ?_ res h
        rw [← List.concat_eq_append]
        exact List.Nodup.concat hnp hacc

/-! Helper definitions and lemmas for print_grid. -/

/-- The flattened indices of one row segment, highest first, as print_grid's
descending loop visits them. -/
def blockIdx (b m : Nat) : List Nat :=
  ((List.range m).map (fun j => b + j)).reverse

/-- The cells stored at indices b, b + 1, ..., b + m - 1. -/
def rowSeg (g : Grid) (b m : Nat) : List Cell :=
  (List.range m).map (fun j => g.grid.getD (b + j) dummyCell)

theorem rowSeg_eq_rowCells (g : Grid) (y : Nat) :
    rowSeg g (y * g.width) g.width = g.rowCells y := rfl

theorem map_range_succ_reverse {α : Type} (f : Nat → α) (n : Nat) :
    ((List.range (n + 1)).map f).reverse = f n :: ((List.range n).map f).reverse := by
  rw [List.range_succ, List.map_append, List.reverse_append]
  rfl

theorem blockIdx_succ (b m : Nat) :
    blockIdx b (m + 1) = (b + m) :: blockIdx b m :=
  map_range_succ_reverse (fun j => b + j) m

theorem rowSeg_succ (g : Grid) (b m : Nat) :
    rowSeg g b (m + 1) = rowSeg g b m ++ [g.grid.getD (b + m) dummyCell] := by
  unfold rowSeg
  rw [List.range_succ, List.map_append]
  rfl

theorem rowSeg_length (g : Grid) (b m : Nat) : (rowSeg g b m).length = m := by
  unfold rowSeg
  rw [List.length_map, List.length_range]

theorem range_mul_succ_reverse (w k : Nat) :
    (List.range ((k + 1) * w)).reverse = blockIdx (k * w) w ++ (List.range (k * w)).reverse := by
  have h : (k + 1) * w = k * w + w := by ring
  rw [h, List.range_add, List.reverse_append]
  rfl

theorem get?_getD {l : List Cell} {i : Nat} (h : i < l.length) :
    l.get? i = some (l.getD i dummyCell) := by
  rw [List.getD_eq_get?, List.get?_eq_get h]
  rfl

theorem set_zero_eq_cons_drop {l : List Cell} (h : 0 < l.length) (c : Cell) :
    l.set 0 c = c :: l.drop 1 := by
  cases l with
  | nil => cases h
  | cons a t => rfl

theorem drop_set_succ {c : Cell} :
    ∀ {l : List Cell} {m : Nat}, m < l.length → ((l.set m c).drop m = c :: l.drop (m + 1)) := by
  intro l
  induction l with
  | nil => intro m h; cases h
  | cons a t ih =>
    intro m h
    cases m with
    | zero => rfl
    | succ m =>
      show ((a :: t.set m c).drop (m + 1)) = c :: t.drop (m + 1)
      rw [List.drop_succ_cons]
      exact ih (by simpa using h)

theorem printLoop_append (g : Grid) (p : Nat) :
    ∀ (l1 l2 : List Nat) (st : List Cell × List String),
      printLoop g p (l1 ++ l2) st =
        match printLoop g p l1 st with
        | none => none
        | some st1 => printLoop g p l2 st1 := by
  intro l1
  induction l1 with
  | nil => intro l2 st; rfl
  | cons i rest ih =>
    intro l2 st
    show printLoop g p (i :: (rest ++ l2)) st = _
    conv_lhs => rw [printLoop]
    conv_rhs => rw [printLoop]
    cases hps : printStep g p st i with
    | none => rfl
    | some st1 =>
      show printLoop g p (rest ++ l2) st1 =
        match printLoop g p rest st1 with
        | none => none
        | some st2 => printLoop g p l2 st2
      exact ih l2 st1

theorem printStep_insert (g : Grid) (p : Nat) (line : List Cell) (out : List String)
    (i : Nat) (hguard : ¬ p < g.width + 1) (hins : p - g.width - 1 < i)
    (hi : i < g.grid.length) :
    printStep g p (line, out) i = some (g.grid.getD i dummyCell :: line,
      if i % g.width = 0
      then out ++ [renderLine (g.grid.getD i dummyCell :: line)]
      else out) := by
  unfold printStep
  rw [if_neg hguard]
  simp only [get?_getD hi]
  rw [if_pos hins]

theorem printStep_set (g : Grid) (p : Nat) (line : List Cell) (out : List String)
    (i : Nat) (hguard : ¬ p < g.width + 1) (hset : ¬ p - g.width - 1 < i)
    (hi : i < g.grid.length) (hlt : i % g.width < line.length) :
    printStep g p (line, out) i = some (line.set (i % g.width) (g.grid.getD i dummyCell),
      if i % g.width = 0
      then out ++ [renderLine (line.set (i % g.width) (g.grid.getD i dummyCell))]
      else out) := by
  unfold printStep
  rw [if_neg hguard]
  simp only [get?_getD hi]
  rw [if_neg hset, if_pos hlt]

theorem range_succ_reverse (n : Nat) :
    (List.range (n + 1)).reverse = n :: (List.range n).reverse := by
  rw [List.range_succ, List.reverse_append]
  rfl

theorem printLoop_nil (g : Grid) (p : Nat) (st : List Cell × List String) :
    printLoop g p [] st = some st := rfl

theorem printLoop_cons_some (g : Grid) (p : Nat) {st st' : List Cell × List String}
    {i : Nat} (h : printStep g p st i = some st') (rest : List Nat) :
    printLoop g p (i :: rest) st = printLoop g p rest st' := by
  conv_lhs => rw [printLoop]
  rw [h]

/-- Processing the top row (indices above the threshold): the line buffer is
built by inserting at the front, and the single print happens at the row's
leftmost index. -/
theorem printLoop_top_row (g : Grid) (p : Nat) (hguard : ¬ p < g.width + 1) :
    ∀ (m b : Nat) (line0 : List Cell) (out0 : List String),
      m + 1 ≤ g.width → b % g.width = 0 → p - g.width - 1 < b →
      b + (m + 1) ≤ g.grid.length →
      printLoop g p (blockIdx b (m + 1)) (line0, out0) =
        some (rowSeg g b (m + 1) ++ line0,
          out0 ++ [renderLine (rowSeg g b (m + 1) ++ line0)]) := by
  intro m
  induction m with
  | zero =>
    intro b line0 out0 hmw hmod hthr hblen
    have hb1 : blockIdx b 1 = [b] := rfl
    have hstep := printStep_insert g p line0 out0 b hguard hthr (by omega)
    rw [hb1, printLoop_cons_some g p hstep [], printLoop_nil, if_pos hmod]
    rfl
  | succ m ih =>
    intro b line0 out0 hmw hmod hthr hblen
    rw [blockIdx_succ]
    have hmodi : (b + (m + 1)) % g.width = m + 1 := by
      have hlt : m + 1 < g.width := by omega
      rw [Nat.add_mod, hmod, Nat.zero_add, Nat.mod_eq_of_lt hlt, Nat.mod_eq_of_lt hlt]
    have hstep := printStep_insert g p line0 out0 (b + (m + 1)) hguard (by omega) (by omega)
    rw [hmodi, if_neg (by omega)] at hstep
    rw [printLoop_cons_some g p hstep,
      ih b (g.grid.getD (b + (m + 1)) dummyCell :: line0) out0 (by omega) hmod hthr (by omega),
      rowSeg_succ g b (m + 1), List.append_assoc]
    rfl

/-- Processing a non-top row (indices at or below the threshold): the line
buffer is overwritten slot by slot, and the single print happens at the row's
leftmost index. -/
theorem printLoop_mid_row (g : Grid) (p : Nat) (hguard : ¬ p < g.width + 1) :
    ∀ (m b : Nat) (line0 : List Cell) (out0 : List String),
      m + 1 ≤ g.width → b % g.width = 0 → b + (m + 1) ≤ p - g.width →
      b + (m + 1) ≤ g.grid.length → line0.length = g.width →
      printLoop g p (blockIdx b (m + 1)) (line0, out0) =
        some (rowSeg g b (m + 1) ++ line0.drop (m + 1),
          out0 ++ [renderLine (rowSeg g b (m + 1) ++ line0.drop (m + 1))]) := by
  intro m
  induction m with
  | zero =>
    intro b line0 out0 hmw hmod hthr hblen hlen0
    have hb1 : blockIdx b 1 = [b] := rfl
    have hstep := printStep_set g p line0 out0 b hguard (by omega) (by omega)
      (by rw [hmod]; omega)
    rw [hmod] at hstep
    rw [set_zero_eq_cons_drop (by omega) (g.grid.getD b dummyCell), if_pos rfl] at hstep
    rw [hb1, printLoop_cons_some g p hstep [], printLoop_nil]
    rfl
  | succ m ih =>
    intro b line0 out0 hmw hmod hthr hblen hlen0
    rw [blockIdx_succ]
    have hmodi : (b + (m + 1)) % g.width = m + 1 := by
      have hlt : m + 1 < g.width := by omega
      rw [Nat.add_mod, hmod, Nat.zero_add, Nat.mod_eq_of_lt hlt, Nat.mod_eq_of_lt hlt]
    have hstep := printStep_set g p line0 out0 (b + (m + 1)) hguard (by omega) (by omega)
      (by rw [hmodi]; omega)
    rw [hmodi, if_neg (by omega)] at hstep
    have hset : m + 1 < line0.length := by omega
    rw [printLoop_cons_some g p hstep,
      ih b (line0.set (m + 1) (g.grid.getD (b + (m + 1)) dummyCell)) out0 (by omega) hmod
        (by omega) (by omega) (by rw [List.length_set]; exact hlen0),
      drop_set_succ hset, rowSeg_succ g b (m + 1), List.append_assoc]
    rfl

/-- Processing rows y, y - 1, ..., 0 (all below the top row) starting from a
full-width line buffer prints exactly those rows, top to bottom. -/
theorem printLoop_rows (g : Grid) (p : Nat) (hguard : ¬ p < g.width + 1)
    (hw : 1 ≤ g.width) (hp : p = g.width * g.height) (hlen : g.grid.length = p) :
    ∀ (y : Nat) (line0 : List Cell) (out0 : List String),
      y + 2 ≤ g.height → line0.length = g.width →
      printLoop g p ((List.range ((y + 1) * g.width)).reverse) (line0, out0) =
        some (rowSeg g 0 g.width,
          out0 ++ ((List.range (y + 1)).reverse).map
            (fun t => renderLine (rowSeg g (t * g.width) g.width))) := by
  intro y
  induction y with
  | zero =>
    intro line0 out0 hy hlen0
    have h2 : g.width * 2 ≤ g.width * g.height := Nat.mul_le_mul_left _ hy
    rw [range_mul_succ_reverse g.width 0, Nat.zero_mul]
    simp only [List.range_zero, List.reverse_nil, List.append_nil]
    have hB := printLoop_mid_row g p hguard (g.width - 1) 0 line0 out0 (by omega)
      (Nat.zero_mod _) (by omega) (by omega) hlen0
    rw [show g.width - 1 + 1 = g.width from by omega] at hB
    have hdrop : line0.drop g.width = [] := by
      rw [← hlen0]
      exact List.drop_length line0
    rw [hdrop, List.append_nil] at hB
    rw [hB]
    simp only [Nat.zero_add, range_succ_reverse, List.range_zero, List.reverse_nil,
      List.map_cons, List.map_nil, Nat.zero_mul]
  | succ y ih =>
    intro line0 out0 hy hlen0
    have hkey : (y + 1) * g.width + g.width + g.width = (y + 3) * g.width := by ring
    have hmul : (y + 3) * g.width ≤ g.width * g.height := by
      calc (y + 3) * g.width = g.width * (y + 3) := by ring
        _ ≤ g.width * g.height := Nat.mul_le_mul_left _ (by omega)
    rw [range_mul_succ_reverse g.width (y + 1), printLoop_append]
    have hB := printLoop_mid_row g p hguard (g.width - 1) ((y + 1) * g.width) line0 out0
      (by omega) (Nat.mul_mod_left _ _) (by omega) (by omega) hlen0
    rw [show g.width - 1 + 1 = g.width from by omega] at hB
    have hdrop : line0.drop g.width = [] := by
      rw [← hlen0]
      exact List.drop_length line0
    rw [hdrop, List.append_nil] at hB
    rw [hB]
    show printLoop g p ((List.range ((y + 1) * g.width)).reverse)
        (rowSeg g ((y + 1) * g.width) g.width,
          out0 ++ [renderLine (rowSeg g ((y + 1) * g.width) g.width)]) = _
    rw [ih (rowSeg g ((y + 1) * g.width) g.width)
        (out0 ++ [renderLine (rowSeg g ((y + 1) * g.width) g.width)]) (by omega)
        (rowSeg_length g _ _),
      range_succ_reverse (y + 1), List.map_cons, List.append_assoc]
    rfl
/-- C8: Config::build fails with exactly five distinct error kinds, each
exactly under its matching condition — StartingSizeMissing for fewer than two
arguments, CycleCountMissing for exactly two, TooFewStartingPoints for three
to five, ArgsParsingError when one of the three leading numeric arguments
fails to parse, StartingPointsParsingError when those parse but a coordinate
pair is malformed — and on every other input it succeeds, with a
duplicate-free starting-coordinate list. -/
theorem claim_C8_config_build (args : List String) :
    (Config.build args = .error .startingSizeMissing ↔ args.length < 2) ∧
    (Config.build args = .error .cycleCountMissing ↔ args.length = 2) ∧
    (Config.build args = .error .tooFewStartingPoints ↔
      3 ≤ args.length ∧ args.length < 6) ∧
    (Config.build args = .error .argsParsingError ↔ 6 ≤ args.length ∧
      (parseU8 (args.getD 0 "") = none ∨ parseU8 (args.getD 1 "") = none ∨
        parseUsize (args.getD 2 "") = none)) ∧
    (Config.build args = .error .startingPointsParsingError ↔ 6 ≤ args.length ∧
      parseU8 (args.getD 0 "") ≠ none ∧ parseU8 (args.getD 1 "") ≠ none ∧
      parseUsize (args.getD 2 "") ≠ none ∧ ∃ s ∈ args.drop 3, parsePoint s = none) ∧
    (∀ cfg, Config.build args = .ok cfg → cfg.starting_cells.Nodup) ∧
    ((∃ cfg, Config.build args = .ok cfg) ↔ 6 ≤ args.length ∧
      parseU8 (args.getD 0 "") ≠ none ∧ parseU8 (args.getD 1 "") ≠ none ∧
      parseUsize (args.getD 2 "") ≠ none ∧ ∀ s ∈ args.drop 3, parsePoint s ≠ none) := by
  by_cases h1 : args.length < 2
  · have hb : Config.build args = .error .startingSizeMissing := by
      unfold Config.build
      rw [if_pos h1]
    rw [hb]
    exact ⟨⟨fun _ => h1, fun _ => rfl⟩,
      ⟨fun hc => absurd (Except.error.inj hc) (by decide), fun hn => absurd hn (by omega)⟩,
      ⟨fun hc => absurd (Except.error.inj hc) (by decide), fun hn => absurd hn.1 (by omega)⟩,
      ⟨fun hc => absurd (Except.error.inj hc) (by decide), fun hn => absurd hn.1 (by omega)⟩,
      ⟨fun hc => absurd (Except.error.inj hc) (by decide), fun hn => absurd hn.1 (by omega)⟩,
      fun cfg hc => Except.noConfusion hc,
      ⟨fun ⟨cfg, hc⟩ => Except.noConfusion hc, fun hn => absurd hn.1 (by omega)⟩⟩
  · by_cases h2 : args.length < 3
    · have hb : Config.build args = .error .cycleCountMissing := by
        unfold Config.build
        rw [if_neg h1, if_pos h2]
      rw [hb]
      exact ⟨⟨fun hc => absurd (Except.error.inj hc) (by decide), fun hn => absurd hn h1⟩,
        ⟨fun _ => by omega, fun _ => rfl⟩,
        ⟨fun hc => absurd (Except.error.inj hc) (by decide), fun hn => absurd hn.1 (by omega)⟩,
        ⟨fun hc => absurd (Except.error.inj hc) (by decide), fun hn => absurd hn.1 (by omega)⟩,
        ⟨fun hc => absurd (Except.error.inj hc) (by decide), fun hn => absurd hn.1 (by omega)⟩,
        fun cfg hc => Except.noConfusion hc,
        ⟨fun ⟨cfg, hc⟩ => Except.noConfusion hc, fun hn => absurd hn.1 (by omega)⟩⟩
    · by_cases h3 : args.length < 6
      · have hb : Config.build args = .error .tooFewStartingPoints := by
          unfold Config.build
          rw [if_neg h1, if_neg h2, if_pos h3]
        rw [hb]
        exact ⟨⟨fun hc => absurd (Except.error.inj hc) (by decide), fun hn => absurd hn h1⟩,
          ⟨fun hc => absurd (Except.error.inj hc) (by decide), fun hn => absurd hn (by omega)⟩,
          ⟨fun _ => ⟨by omega, h3⟩, fun _ => rfl⟩,
          ⟨fun hc => absurd (Except.error.inj hc) (by decide), fun hn => absurd hn.1 (by omega)⟩,
          ⟨fun hc => absurd (Except.error.inj hc) (by decide), fun hn => absurd hn.1 (by omega)⟩,
          fun cfg hc => Except.noConfusion hc,
          ⟨fun ⟨cfg, hc⟩ => Except.noConfusion hc, fun hn => absurd hn.1 (by omega)⟩⟩
      · have h6 : 6 ≤ args.length := by omega
        cases hp0 : parseU8 (args.getD 0 "") with
        | none =>
          have hb : Config.build args = .error .argsParsingError := by
            unfold Config.build
            rw [if_neg h1, if_neg h2, if_neg h3]
            simp only [hp0]
          rw [hb]
          exact ⟨⟨fun hc => absurd (Except.error.inj hc) (by decide), fun hn => absurd hn h1⟩,
            ⟨fun hc => absurd (Except.error.inj hc) (by decide), fun hn => absurd hn (by omega)⟩,
            ⟨fun hc => absurd (Except.error.inj hc) (by decide), fun hn => absurd hn.2 h3⟩,
            ⟨fun _ => ⟨h6, Or.inl rfl⟩, fun _ => rfl⟩,
            ⟨fun hc => absurd (Except.error.inj hc) (by decide), fun hn => absurd rfl hn.2.1⟩,
            fun cfg hc => Except.noConfusion hc,
            ⟨fun ⟨cfg, hc⟩ => Except.noConfusion hc, fun hn => absurd rfl hn.2.1⟩⟩
        | some w0 =>
          cases hp1 : parseU8 (args.getD 1 "") with
          | none =>
            have hb : Config.build args = .error .argsParsingError := by
              unfold Config.build
              rw [if_neg h1, if_neg h2, if_neg h3]
              simp only [hp0, hp1]
            rw [hb]
            exact ⟨⟨fun hc => absurd (Except.error.inj hc) (by decide), fun hn => absurd hn h1⟩,
              ⟨fun hc => absurd (Except.error.inj hc) (by decide),
                fun hn => absurd hn (by omega)⟩,
              ⟨fun hc => absurd (Except.error.inj hc) (by decide), fun hn => absurd hn.2 h3⟩,
              ⟨fun _ => ⟨h6, Or.inr (Or.inl rfl)⟩, fun _ => rfl⟩,
              ⟨fun hc => absurd (Except.error.inj hc) (by decide),
                fun hn => absurd rfl hn.2.2.1⟩,
              fun cfg hc => Except.noConfusion hc,
              ⟨fun ⟨cfg, hc⟩ => Except.noConfusion hc, fun hn => absurd rfl hn.2.2.1⟩⟩
          | some h0 =>
            cases hp2 : parseUsize (args.getD 2 "") with
            | none =>
              have hb : Config.build args = .error .argsParsingError := by
                unfold Config.build
                rw [if_neg h1, if_neg h2, if_neg h3]
                simp only [hp0, hp1, hp2]
              rw [hb]
              exact ⟨⟨fun hc => absurd (Except.error.inj hc) (by decide),
                  fun hn => absurd hn h1⟩,
                ⟨fun hc => absurd (Except.error.inj hc) (by decide),
                  fun hn => absurd hn (by omega)⟩,
                ⟨fun hc => absurd (Except.error.inj hc) (by decide),
                  fun hn => absurd hn.2 h3⟩,
                ⟨fun _ => ⟨h6, Or.inr (Or.inr rfl)⟩, fun _ => rfl⟩,
                ⟨fun hc => absurd (Except.error.inj hc) (by decide),
                  fun hn => absurd rfl hn.2.2.2.1⟩,
                fun cfg hc => Except.noConfusion hc,
                ⟨fun ⟨cfg, hc⟩ => Except.noConfusion hc, fun hn => absurd rfl hn.2.2.2.1⟩⟩
            | some cc0 =>
              cases hcp : collectPoints (args.drop 3) [] with
              | none =>
                have hb : Config.build args = .error .startingPointsParsingError := by
                  unfold Config.build
                  rw [if_neg h1, if_neg h2, if_neg h3]
                  simp only [hp0, hp1, hp2, hcp]
                rw [hb]
                refine ⟨⟨fun hc => absurd (Except.error.inj hc) (by decide),
                    fun hn => absurd hn h1⟩,
                  ⟨fun hc => absurd (Except.error.inj hc) (by decide),
                    fun hn => absurd hn (by omega)⟩,
                  ⟨fun hc => absurd (Except.error.inj hc) (by decide),
                    fun hn => absurd hn.2 h3⟩,
                  ⟨fun hc => absurd (Except.error.inj hc) (by decide), fun hn => ?_⟩,
                  ⟨fun _ => ⟨h6, by simp, by simp, by simp,
                    (collectPoints_eq_none_iff (args.drop 3) []).mp hcp⟩, fun _ => rfl⟩,
                  fun cfg hc => Except.noConfusion hc,
                  ⟨fun ⟨cfg, hc⟩ => Except.noConfusion hc, fun hn => ?_⟩⟩
                · rcases hn.2 with h | h | h <;> exact Option.noConfusion h
                · obtain ⟨s, hs, hps⟩ := (collectPoints_eq_none_iff (args.drop 3) []).mp hcp
                  exact absurd hps (hn.2.2.2.2 s hs)
              | some cells =>
                have hb : Config.build args = .ok (Config.mk w0 h0 cc0 cells) := by
                  unfold Config.build
                  rw [if_neg h1, if_neg h2, if_neg h3]
                  simp only [hp0, hp1, hp2, hcp]
                rw [hb]
                refine ⟨⟨fun hc => Except.noConfusion hc, fun hn => absurd hn h1⟩,
                  ⟨fun hc => Except.noConfusion hc, fun hn => absurd hn (by omega)⟩,
                  ⟨fun hc => Except.noConfusion hc, fun hn => absurd hn.2 h3⟩,
                  ⟨fun hc => Except.noConfusion hc, fun hn => ?_⟩,
                  ⟨fun hc => Except.noConfusion hc, fun hn => ?_⟩,
                  fun cfg hc => ?_,
                  ⟨fun _ => ⟨h6, by simp, by simp, by simp, fun s hs hps => ?_⟩,
                    fun _ => ⟨Config.mk w0 h0 cc0 cells, rfl⟩⟩⟩
                · rcases hn.2 with h | h | h <;> exact Option.noConfusion h
                · obtain ⟨s, hs, hps⟩ := hn.2.2.2.2
                  have hnone := (collectPoints_eq_none_iff (args.drop 3) []).mpr ⟨s, hs, hps⟩
                  rw [hnone] at hcp
                  cases hcp
                · injection hc with hcfg
                  subst hcfg
                  exact collectPoints_nodup (args.drop 3) [] List.nodup_nil cells hcp
                · have hnone := (collectPoints_eq_none_iff (args.drop 3) []).mpr ⟨s, hs, hps⟩
                  rw [hnone] at hcp
                  cases hcp

/-- Witness for C8: a one-argument call fails with the missing-size error, and
a seven-argument call with a repeated coordinate succeeds with the duplicate
removed; the resulting coordinate list is duplicate-free. -/
theorem claim_C8_config_build_witness :
    Config.build ["8"] = .error .startingSizeMissing ∧
    Config.build ["4", "4", "10", "1,1", "1,2", "2,1", "1,2"] =
      .ok (Config.mk 4 4 10 [(1, 1), (1, 2), (2, 1)]) ∧
    List.Nodup [(1, 1), (1, 2), (2, 1)] :=
  ⟨(claim_C8_config_build ["8"]).1.mpr (by decide),
    by rfl,
    (claim_C8_config_build ["4", "4", "10", "1,1", "1,2", "2,1", "1,2"]).2.2.2.2.2.1
      (Config.mk 4 4 10 [(1, 1), (1, 2), (2, 1)]) (by rfl)⟩

theorem printLoop_cons_none (g : Grid) (p : Nat) {st : List Cell × List String} {i : Nat}
    (h : printStep g p st i = none) (rest : List Nat) :
    printLoop g p (i :: rest) st = none := by
  conv_lhs => rw [printLoop]
  rw [h]

/-- C9 counterexample: on the non-empty single-row 2 by 1 grid the u8
expression width * height - width - 1 underflows, print_grid panics, and no
frame is emitted at all — so it is not true of every grid that each cell's
glyph is printed exactly once per frame. -/
theorem claim_C9_counterexample : (Grid.new 2 1 []).print_grid = none := by decide

/-- C9 (amended): for every dimension-consistent grid whose u8 index
arithmetic stays in range — width * height ≤ 255 and the grid empty or of
height at least 2 — print_grid emits exactly the specified frame: one row
string per grid row, rows top to bottom (y = height - 1 down to 0), within a
row left to right, one glyph per cell (the Debug glyph, O alive and . dead,
plus its space); an empty grid prints no rows. -/
theorem claim_C9_render_policy (g : Grid) (hlen : g.grid.length = g.width * g.height)
    (hmax : g.width * g.height ≤ 255) :
    (g.width * g.height = 0 → g.print_grid = some []) ∧
    (1 ≤ g.width → 2 ≤ g.height → g.print_grid = some g.renderRows) := by
  constructor
  · intro hzero
    show (if 255 < g.width * g.height then none
      else (printLoop g (g.width * g.height)
        ((List.range (g.width * g.height)).reverse) ([], [])).map (fun st => st.2)) = some []
    rw [if_neg (by omega), hzero]
    rfl
  · intro hw hh
    have hguard : ¬ g.width * g.height < g.width + 1 := by
      have h2 : g.width * 2 ≤ g.width * g.height := Nat.mul_le_mul_left _ hh
      omega
    show (if 255 < g.width * g.height then none
      else (printLoop g (g.width * g.height)
        ((List.range (g.width * g.height)).reverse) ([], [])).map (fun st => st.2)) =
      some g.renderRows
    rw [if_neg (by omega)]
    have hb_eq : (g.height - 1) * g.width + g.width = g.width * g.height := by
      have h1 : g.height - 1 + 1 = g.height := by omega
      calc (g.height - 1) * g.width + g.width = (g.height - 1 + 1) * g.width := by ring
        _ = g.height * g.width := by rw [h1]
        _ = g.width * g.height := Nat.mul_comm _ _
    have hlist : (List.range (g.width * g.height)).reverse =
        blockIdx ((g.height - 1) * g.width) g.width ++
          (List.range ((g.height - 1) * g.width)).reverse := by
      conv_lhs => rw [show g.width * g.height = (g.height - 1 + 1) * g.width from by
        rw [← hb_eq]; ring]
      exact range_mul_succ_reverse g.width (g.height - 1)
    rw [hlist, printLoop_append]
    have hA := printLoop_top_row g (g.width * g.height) hguard (g.width - 1)
      ((g.height - 1) * g.width) [] [] (by omega) (Nat.mul_mod_left _ _) (by omega) (by omega)
    rw [show g.width - 1 + 1 = g.width from by omega] at hA
    rw [List.append_nil] at hA
    rw [hA]
    show (printLoop g (g.width * g.height)
        ((List.range ((g.height - 1) * g.width)).reverse)
        (rowSeg g ((g.height - 1) * g.width) g.width,
          [renderLine (rowSeg g ((g.height - 1) * g.width) g.width)])).map (fun st => st.2) =
      some g.renderRows
    have hR := printLoop_rows g (g.width * g.height) hguard hw rfl hlen (g.height - 2)
      (rowSeg g ((g.height - 1) * g.width) g.width)
      [renderLine (rowSeg g ((g.height - 1) * g.width) g.width)]
      (by omega) (rowSeg_length g _ _)
    rw [show g.height - 2 + 1 = g.height - 1 from by omega] at hR
    rw [hR]
    show some ([renderLine (rowSeg g ((g.height - 1) * g.width) g.width)] ++
        ((List.range (g.height - 1)).reverse).map
          (fun t => renderLine (rowSeg g (t * g.width) g.width))) = some g.renderRows
    unfold Grid.renderRows
    conv_rhs => rw [show g.height = g.height - 1 + 1 from by omega, range_succ_reverse,
      List.map_cons]
    rfl

/-- Witness for C9 (amended): a 3 by 2 grid with live cells (0, 0) and (2, 1)
renders as the two expected rows, top row first. -/
theorem claim_C9_render_policy_witness :
    (Grid.new 3 2 [(0, 0), (2, 1)]).grid.length =
      (Grid.new 3 2 [(0, 0), (2, 1)]).width * (Grid.new 3 2 [(0, 0), (2, 1)]).height ∧
    (Grid.new 3 2 [(0, 0), (2, 1)]).width * (Grid.new 3 2 [(0, 0), (2, 1)]).height ≤ 255 ∧
    (Grid.new 3 2 [(0, 0), (2, 1)]).print_grid =
      some (Grid.renderRows (Grid.new 3 2 [(0, 0), (2, 1)])) ∧
    Grid.renderRows (Grid.new 3 2 [(0, 0), (2, 1)]) = [". . O ", "O . . "] :=
  ⟨by decide, by decide,
    (claim_C9_render_policy (Grid.new 3 2 [(0, 0), (2, 1)]) (by decide) (by decide)).2
      (by decide) (by decide),
    by decide⟩

/-- C10: print_grid's index arithmetic is performed in u8, so rendering is
not total: the product width * height overflows u8 above 255, and on every
non-empty grid of height 1 the expression width * height - width - 1
underflows u8, so print_grid panics in both situations; consequently a
successful rendering requires width * height ≤ 255 and (an empty grid or
height at least 2), even though Grid::new accepts those same dimensions. -/
theorem claim_C10_print_arith_u8_bounded (g : Grid) :
    (255 < g.width * g.height → g.print_grid = none) ∧
    (g.height = 1 → 1 ≤ g.width → g.print_grid = none) ∧
    (∀ rows, g.print_grid = some rows →
      g.width * g.height ≤ 255 ∧ (g.width * g.height = 0 ∨ 2 ≤ g.height)) := by
  have hover : 255 < g.width * g.height → g.print_grid = none := by
    intro h
    show (if 255 < g.width * g.height then none
      else (printLoop g (g.width * g.height)
        ((List.range (g.width * g.height)).reverse) ([], [])).map (fun st => st.2)) = none
    rw [if_pos h]
  have hunder : g.height = 1 → 1 ≤ g.width → g.print_grid = none := by
    intro hh hw
    by_cases hbig : 255 < g.width * g.height
    · exact hover hbig
    · show (if 255 < g.width * g.height then none
        else (printLoop g (g.width * g.height)
          ((List.range (g.width * g.height)).reverse) ([], [])).map (fun st => st.2)) = none
      rw [if_neg hbig]
      have hp1 : g.width * g.height = g.width * g.height - 1 + 1 := by
        have hpos : 1 ≤ g.width * g.height := by
          rw [hh, Nat.mul_one]
          exact hw
        omega
      rw [hp1, range_succ_reverse]
      have hstep : printStep g (g.width * g.height - 1 + 1) ([], [])
          (g.width * g.height - 1) = none := by
        unfold printStep
        rw [if_pos ?_]
        rw [hh, Nat.mul_one]
        omega
      rw [printLoop_cons_none g _ hstep]
      rfl
  refine ⟨hover, hunder, fun rows hsome => ?_⟩
  constructor
  · by_contra hbig
    rw [hover (by omega)] at hsome
    cases hsome
  · by_contra hcase
    push_neg at hcase
    obtain ⟨hne, hlt⟩ := hcase
    have hh1 : g.height = 1 := by
      have hne0 : g.height ≠ 0 := fun h0 => hne (by rw [h0, Nat.mul_zero])
      omega
    have hw1 : 1 ≤ g.width := by
      by_contra hw0
      have hz : g.width = 0 := by omega
      rw [hz, Nat.zero_mul] at hne
      exact hne rfl
    rw [hunder hh1 hw1] at hsome
    cases hsome

/-- Witness for C10: a 3 by 1 grid satisfies the underflow condition and its
rendering panics. -/
theorem claim_C10_print_arith_u8_bounded_witness :
    (Grid.new 3 1 []).height = 1 ∧ 1 ≤ (Grid.new 3 1 []).width ∧
    (Grid.new 3 1 []).print_grid = none :=
  ⟨rfl, by decide,
    (claim_C10_print_arith_u8_bounded (Grid.new 3 1 [])).2.1 rfl (by decide)⟩

end GameOfLife
